import Mathlib

/-!
Verification of the vending-machine CRUD service (src/src/main.rs) against its
natural-language specification.

The Rust program is an axum HTTP service over the structsy embedded store.
Pure request-handling logic is shallowly embedded here: each handler becomes a
Lean function from its decoded inputs and the store state to a result, the new
store state, and the number of transactions it opened.  The structsy store and
the tower-http request-id middleware are external collaborators; they are
modelled from the specification of their interface boundary, as used by the
source.
-/

namespace Vending

/-- Record type `Coffee` from src/src/main.rs: `{brand: String, size: u32, time: String}`. -/
structure Coffee where
  brand : String
  size : Nat
  time : String
deriving DecidableEq, Repr

/-- Record type `Beer` from src/src/main.rs: structurally identical to `Coffee`. -/
structure Beer where
  brand : String
  size : Nat
  time : String
deriving DecidableEq, Repr

/-- The JSON-body rejection produced by the axum extractor, at its interface
boundary: a client-error status and a decoder-supplied body text. -/
structure JsonRejection where
  status : Nat
  body_text : String
deriving DecidableEq, Repr

/-- The error enum `AppError` of src/src/main.rs: JSON-body rejection
(InvalidInput class), structsy store error (StoreFailure class), and I/O error
(IOFailure class). -/
inductive AppError where
  | jsonRejection (rej : JsonRejection)
  | structsyError (msg : String)
  | ioError (msg : String)
deriving DecidableEq, Repr

/-- The wire error envelope of `AppError::into_response`, together with the
line logged at error level by the same function. -/
structure ErrorOutcome where
  status : Nat
  message : String
  logged : String
deriving DecidableEq, Repr

/-- Embedding of `impl IntoResponse for AppError` (src/src/main.rs lines 67-94):
JSON rejections pass the decoder status and text through; structsy errors give
500 with the store text; I/O errors give 500 with a fixed generic message while
the cause goes only to the log. -/
def AppError.into_response : AppError → ErrorOutcome
  | .jsonRejection rej =>
    ⟨rej.status, rej.body_text, "bad user input -> " ++ rej.body_text⟩
  | .structsyError msg =>
    ⟨500, msg, "DB error -> " ++ msg⟩
  | .ioError msg =>
    ⟨500, "something went wrong.  Try agin later!", "I/O error -> " ++ msg⟩

/-! ### Identifier codec

Modelled from the spec: the store-issued identifier (`structsy::Ref`) is an
opaque handle with a canonical string form, produced by `Display`
(`id.to_string()` in `list_coffees`) and consumed by `FromStr` (`id.parse()` in
`update_coffee` / `delete_coffee`).  It is modelled as a natural number whose
canonical form is its decimal numeral; parsing rejects anything that is not a
canonical numeral. -/

/-- One decimal digit as a character. -/
def digChar : Nat → Char
  | 0 => '0'
  | 1 => '1'
  | 2 => '2'
  | 3 => '3'
  | 4 => '4'
  | 5 => '5'
  | 6 => '6'
  | 7 => '7'
  | 8 => '8'
  | 9 => '9'
  | _ => '*'

/-- Decimal value of a character, if it is a digit. -/
def digVal? (c : Char) : Option Nat :=
  if c = '0' then some 0
  else if c = '1' then some 1
  else if c = '2' then some 2
  else if c = '3' then some 3
  else if c = '4' then some 4
  else if c = '5' then some 5
  else if c = '6' then some 6
  else if c = '7' then some 7
  else if c = '8' then some 8
  else if c = '9' then some 9
  else none

/-- Little-endian base-10 digits of `n`, with explicit fuel so that the
definition is structural (kernel-reducible); agrees with `Nat.digits 10 n`
whenever `n ≤ fuel` (lemma `digitsRev_eq_digits`). -/
def digitsRev : Nat → Nat → List Nat
  | 0, _ => []
  | _ + 1, 0 => []
  | fuel + 1, n + 1 => (n + 1) % 10 :: digitsRev fuel ((n + 1) / 10)

/-- Canonical string form of an identifier: the decimal numeral. -/
def serializeId (n : Nat) : String :=
  if n = 0 then "0" else ⟨((digitsRev n n).reverse.map digChar)⟩

/-- Parse a list of characters as decimal digit values (big-endian), failing on
any non-digit. -/
def digitsOfChars : List Char → Option (List Nat)
  | [] => some []
  | c :: cs =>
    match digVal? c, digitsOfChars cs with
    | some d, some ds => some (d :: ds)
    | _, _ => none

/-- Little-endian value of a digit list in base 10. -/
def valOfDigitsRev : List Nat → Nat
  | [] => 0
  | d :: ds => d + 10 * valOfDigitsRev ds

/-- Parse a character list as a canonical decimal numeral: nonempty, all
decimal digits, no leading zero (except for "0" itself). -/
def parseChars : List Char → Option Nat
  | [] => none
  | c :: cs =>
    if c = '0' ∧ cs ≠ [] then none
    else
      match digitsOfChars (c :: cs) with
      | none => none
      | some ds => some (valOfDigitsRev ds.reverse)

/-- Parse the canonical string form of an identifier.  Anything that is not a
canonical numeral is rejected with `none` (a decoding failure, never a
crash). -/
def parseId (s : String) : Option Nat :=
  parseChars s.data

/-! ### Store model

Modelled from the spec: the structsy store at its interface boundary
(open / define / begin-commit transaction / insert / update / delete / scan),
as consumed by the handlers.  The state is the set of defined schemas and the
persisted records of each kind; identifiers are issued from a per-kind
counter. -/

/-- State of the embedded store: which schemas are defined, the next fresh
identifier per kind, and the persisted records of each kind. -/
structure Store where
  coffeeDefined : Bool
  beerDefined : Bool
  nextCoffeeId : Nat
  nextBeerId : Nat
  coffees : List (Nat × Coffee)
  beers : List (Nat × Beer)
deriving DecidableEq, Repr

/-- The empty (freshly created) store: no schema defined, no records. -/
def emptyStore : Store := ⟨false, false, 0, 0, [], []⟩

/-- Store invariant: every persisted identifier was issued before the current
counter value, so the counter is always fresh. -/
def WFStore (s : Store) : Prop :=
  (∀ e ∈ s.coffees, e.1 < s.nextCoffeeId) ∧ (∀ e ∈ s.beers, e.1 < s.nextBeerId)

instance : DecidablePred WFStore := fun s => by
  unfold WFStore; infer_instance

/-- Modelled from the spec: `connection.define::<Coffee>()` registers the
schema; idempotent. -/
def defineCoffee (s : Store) : Store := { s with coffeeDefined := true }

/-- Modelled from the spec: `connection.define::<Beer>()` registers the
schema; idempotent. -/
def defineBeer (s : Store) : Store := { s with beerDefined := true }

/-- Modelled from the spec: `tx.insert(&coffee)` inside a committed
transaction; returns the freshly issued identifier. -/
def insertCoffee (c : Coffee) (s : Store) : Nat × Store :=
  (s.nextCoffeeId,
   { s with coffees := s.coffees ++ [(s.nextCoffeeId, c)],
            nextCoffeeId := s.nextCoffeeId + 1 })

/-- Modelled from the spec: `tx.insert(&beer)` inside a committed transaction. -/
def insertBeer (b : Beer) (s : Store) : Nat × Store :=
  (s.nextBeerId,
   { s with beers := s.beers ++ [(s.nextBeerId, b)],
            nextBeerId := s.nextBeerId + 1 })

/-- Modelled from the spec: `connection.scan::<Coffee>()`; fails when the
schema was never defined, otherwise yields all records in store order. -/
def scanCoffee (s : Store) : Except String (List (Nat × Coffee)) :=
  if s.coffeeDefined then .ok s.coffees else .error "TypeNotDefined"

/-- Modelled from the spec: `connection.scan::<Beer>()`. -/
def scanBeer (s : Store) : Except String (List (Nat × Beer)) :=
  if s.beerDefined then .ok s.beers else .error "TypeNotDefined"

/-- Modelled from the spec: `tx.update(&p_id, &coffee)` inside a committed
transaction; replaces the record at the identifier, failing when the
identifier does not resolve to a live record. -/
def updateRefCoffee (id : Nat) (c : Coffee) (s : Store) : Except String Store :=
  if s.coffees.any (fun e => e.1 == id) then
    .ok { s with coffees := s.coffees.map (fun e => if e.1 == id then (id, c) else e) }
  else .error "RecordNotFound"

/-- Modelled from the spec: `tx.update(&p_id, &beer)` inside a committed
transaction. -/
def updateRefBeer (id : Nat) (b : Beer) (s : Store) : Except String Store :=
  if s.beers.any (fun e => e.1 == id) then
    .ok { s with beers := s.beers.map (fun e => if e.1 == id then (id, b) else e) }
  else .error "RecordNotFound"

/-- Modelled from the spec: `tx.delete(&p_id)` inside a committed transaction;
removes the record at the identifier, failing when it is not live. -/
def deleteRefCoffee (id : Nat) (s : Store) : Except String Store :=
  if s.coffees.any (fun e => e.1 == id) then
    .ok { s with coffees := s.coffees.filter (fun e => !(e.1 == id)) }
  else .error "RecordNotFound"

/-- Modelled from the spec: `tx.delete(&p_id)` for the beer kind. -/
def deleteRefBeer (id : Nat) (s : Store) : Except String Store :=
  if s.beers.any (fun e => e.1 == id) then
    .ok { s with beers := s.beers.filter (fun e => !(e.1 == id)) }
  else .error "RecordNotFound"

/-! ### Handlers

Each handler of src/src/main.rs becomes a function from its decoded inputs
(the axum extractors run first: the JSON body arrives as an `Except` of the
extractor rejection) and the store state to the result, the new store state,
and the number of transactions begun by the handler. -/

/-- Wire item `CoffeeItem` of src/src/main.rs: serialized identifier plus
record. -/
structure CoffeeItem where
  id : String
  coffee : Coffee
deriving DecidableEq, Repr

/-- Wire list `CoffeeList` of src/src/main.rs. -/
structure CoffeeList where
  coffees : List CoffeeItem
deriving DecidableEq, Repr

/-- Wire item `BeerItem` of src/src/main.rs. -/
structure BeerItem where
  id : String
  beer : Beer
deriving DecidableEq, Repr

/-- Wire list `BeerList` of src/src/main.rs. -/
structure BeerList where
  beers : List BeerItem
deriving DecidableEq, Repr

/-- Handler `drink_coffee` (POST /coffee/create, src/src/main.rs lines 138-147):
define the schema, then insert the decoded record in a committed transaction.
A body rejection short-circuits before any store access. -/
def drink_coffee (body : Except JsonRejection Coffee) (s : Store) :
    Except AppError Unit × Store × Nat :=
  match body with
  | .error rej => (.error (.jsonRejection rej), s, 0)
  | .ok coffee =>
    let s1 := defineCoffee s
    let (_, s2) := insertCoffee coffee s1
    (.ok (), s2, 1)

/-- Handler `list_coffees` (GET /coffee/list, src/src/main.rs lines 149-158):
scan all coffee records and wrap each with its serialized identifier.  No
transaction is opened and the store is never mutated. -/
def list_coffees (s : Store) : Except AppError CoffeeList × Store × Nat :=
  match scanCoffee s with
  | .error e => (.error (.structsyError e), s, 0)
  | .ok entries =>
    (.ok ⟨entries.map (fun e => ⟨serializeId e.1, e.2⟩)⟩, s, 0)

/-- Handler `update_coffee` (POST /coffee/update/:id, src/src/main.rs lines
160-170): parse the path identifier with `str::parse::<Ref<Coffee>>` — whose
failure is a `StructsyError` converted by `From` into
`AppError::StructsyError` — then replace the record in a committed
transaction. -/
def update_coffee (id : String) (body : Except JsonRejection Coffee) (s : Store) :
    Except AppError Unit × Store × Nat :=
  match body with
  | .error rej => (.error (.jsonRejection rej), s, 0)
  | .ok coffee =>
    match parseId id with
    | none => (.error (.structsyError "InvalidId"), s, 0)
    | some p_id =>
      match updateRefCoffee p_id coffee s with
      | .error e => (.error (.structsyError e), s, 1)
      | .ok s2 => (.ok (), s2, 1)

/-- Handler `delete_coffee` (DELETE /coffee/delete/:id, src/src/main.rs lines
172-181): parse the path identifier (parse failure is a `StructsyError`, as in
`update_coffee`), then delete the record in a committed transaction. -/
def delete_coffee (id : String) (s : Store) :
    Except AppError Unit × Store × Nat :=
  match parseId id with
  | none => (.error (.structsyError "InvalidId"), s, 0)
  | some p_id =>
    match deleteRefCoffee p_id s with
    | .error e => (.error (.structsyError e), s, 1)
    | .ok s2 => (.ok (), s2, 1)

/-- Handler `drink_beer` (POST /beer/create, src/src/main.rs lines 183-192). -/
def drink_beer (body : Except JsonRejection Beer) (s : Store) :
    Except AppError Unit × Store × Nat :=
  match body with
  | .error rej => (.error (.jsonRejection rej), s, 0)
  | .ok beer =>
    let s1 := defineBeer s
    let (_, s2) := insertBeer beer s1
    (.ok (), s2, 1)

/-- Handler `list_beers` (GET /beer/list, src/src/main.rs lines 194-203). -/
def list_beers (s : Store) : Except AppError BeerList × Store × Nat :=
  match scanBeer s with
  | .error e => (.error (.structsyError e), s, 0)
  | .ok entries =>
    (.ok ⟨entries.map (fun e => ⟨serializeId e.1, e.2⟩)⟩, s, 0)

/-- Handler `update_beer` (POST /beer/update/:id, src/src/main.rs lines
205-215). -/
def update_beer (id : String) (body : Except JsonRejection Beer) (s : Store) :
    Except AppError Unit × Store × Nat :=
  match body with
  | .error rej => (.error (.jsonRejection rej), s, 0)
  | .ok beer =>
    match parseId id with
    | none => (.error (.structsyError "InvalidId"), s, 0)
    | some p_id =>
      match updateRefBeer p_id beer s with
      | .error e => (.error (.structsyError e), s, 1)
      | .ok s2 => (.ok (), s2, 1)

/-- Handler `delete_beer` (DELETE /beer/delete/:id, src/src/main.rs lines
216-225). -/
def delete_beer (id : String) (s : Store) :
    Except AppError Unit × Store × Nat :=
  match parseId id with
  | none => (.error (.structsyError "InvalidId"), s, 0)
  | some p_id =>
    match deleteRefBeer p_id s with
    | .error e => (.error (.structsyError e), s, 1)
    | .ok s2 => (.ok (), s2, 1)

/-! ### Request-id middleware

Modelled from the spec: the tower-http request-id layers attached in
`create_router` (src/src/main.rs lines 277-285).  The innermost relevant piece
is the routed handler; `PropagateRequestIdLayer` wraps it and
`SetRequestIdLayer` (with `MakeRequestUuid`) is outermost, so on the way in
the identifier is read-or-generated and on the way out it is copied to the
response, whatever the handler did. -/

/-- Headers as an association list of name/value pairs. -/
abbrev Headers := List (String × String)

/-- The correlation header name used by `create_router`. -/
def xRequestId : String := "x-request-id"

/-- First value of a header, if present. -/
def getHeader (hs : Headers) (k : String) : Option String :=
  (hs.find? (fun p => p.1 == k)).map (fun p => p.2)

/-- Modelled from the spec: `SetRequestIdLayer` with `MakeRequestUuid`
(src/src/main.rs lines 282-285): insert a freshly generated identifier into
the request when the header is absent; an inbound value is kept. -/
def set_request_id (fresh : String) (req : Headers) : Headers :=
  match getHeader req xRequestId with
  | some _ => req
  | none => (xRequestId, fresh) :: req

/-- Modelled from the spec: `PropagateRequestIdLayer` (src/src/main.rs line
280): copy the request's identifier header onto the response when the
response does not already carry one. -/
def propagate_request_id (req resp : Headers) : Headers :=
  match getHeader resp xRequestId with
  | some _ => resp
  | none =>
    match getHeader req xRequestId with
    | some v => (xRequestId, v) :: resp
    | none => resp

/-- The middleware chain of `create_router` around an arbitrary routed handler
(success or failure): set the request id on the way in, run the handler,
propagate the id to the response on the way out. -/
def create_router_middleware (fresh : String) (handler : Headers → Headers)
    (req : Headers) : Headers :=
  let req1 := set_request_id fresh req
  let resp := handler req1
  propagate_request_id req1 resp

/-! ### Request machinery for frame properties -/

/-- A request to any endpoint other than the two create endpoints, carrying
its decoded inputs. -/
inductive NonCreateReq where
  | listC
  | updateC (id : String) (body : Except JsonRejection Coffee)
  | deleteC (id : String)
  | listB
  | updateB (id : String) (body : Except JsonRejection Beer)
  | deleteB (id : String)

/-- The store state after handling one non-create request. -/
def applyNonCreate (r : NonCreateReq) (s : Store) : Store :=
  match r with
  | .listC => (list_coffees s).2.1
  | .updateC id body => (update_coffee id body s).2.1
  | .deleteC id => (delete_coffee id s).2.1
  | .listB => (list_beers s).2.1
  | .updateB id body => (update_beer id body s).2.1
  | .deleteB id => (delete_beer id s).2.1

/-- The pair of defined-schema flags of a store state. -/
def definedSchemas (s : Store) : Bool × Bool := (s.coffeeDefined, s.beerDefined)

/-- A sample coffee record, used for concrete instances. -/
def rAcme : Coffee := ⟨"Acme", 12, "2024-01-01T00:00:00Z"⟩

/-- A second, distinct sample coffee record. -/
def rBrew : Coffee := ⟨"Brew", 16, "2024-01-01T00:00:01Z"⟩

/-! ### Identifier codec lemmas -/

/-- The fueled digit function agrees with `Nat.digits 10` when given enough
fuel. -/
theorem digitsRev_eq_digits : ∀ fuel n : Nat, n ≤ fuel → digitsRev fuel n = Nat.digits 10 n
  | 0, 0, _ => by simp [digitsRev]
  | 0, n + 1, h => by omega
  | fuel + 1, 0, _ => by simp [digitsRev]
  | fuel + 1, n + 1, h => by
    rw [digitsRev, @Nat.digits_def' 10 (by norm_num) (n + 1) (Nat.succ_pos n),
      digitsRev_eq_digits fuel ((n + 1) / 10)
        (by
          have : (n + 1) / 10 < n + 1 := Nat.div_lt_self (Nat.succ_pos n) (by norm_num)
          omega)]

/-- Evaluating `digVal?` on a digit character recovers the digit. -/
theorem digVal?_digChar {d : Nat} (h : d < 10) : digVal? (digChar d) = some d := by
  have hall : ∀ x < 10, digVal? (digChar x) = some x := by decide
  exact hall d h

/-- Inversion for `digVal?`: a successful parse comes from a digit character. -/
theorem digVal?_eq_some {c : Char} {d : Nat} (h : digVal? c = some d) :
    d < 10 ∧ c = digChar d := by
  unfold digVal? at h
  split_ifs at h with h0 h1 h2 h3 h4 h5 h6 h7 h8 h9 <;>
    (subst_vars; injection h with hd; subst hd; exact ⟨by omega, rfl⟩)

/-- Parsing the character image of a digit list recovers the list. -/
theorem digitsOfChars_map_digChar : ∀ ds : List Nat, (∀ d ∈ ds, d < 10) →
    digitsOfChars (ds.map digChar) = some ds
  | [], _ => rfl
  | d :: ds, h => by
    have hd : digVal? (digChar d) = some d := digVal?_digChar (h d (by simp))
    have hds : digitsOfChars (ds.map digChar) = some ds :=
      digitsOfChars_map_digChar ds (fun x hx => h x (by simp [hx]))
    simp [digitsOfChars, hd, hds]

/-- Inversion for `digitsOfChars`: a successful parse is the character image of
its digit list, and every digit is below 10. -/
theorem digitsOfChars_eq_some : ∀ {cs : List Char} {ds : List Nat},
    digitsOfChars cs = some ds → cs = ds.map digChar ∧ ∀ d ∈ ds, d < 10
  | [], ds, h => by
    simp only [digitsOfChars, Option.some.injEq] at h
    subst h
    exact ⟨rfl, by simp⟩
  | c :: cs, ds, h => by
    unfold digitsOfChars at h
    cases hc : digVal? c with
    | none => rw [hc] at h; exact absurd h (by simp)
    | some d =>
      cases hcs : digitsOfChars cs with
      | none => rw [hc, hcs] at h; exact absurd h (by simp)
      | some ds1 =>
        rw [hc, hcs] at h
        obtain ⟨hd, hcd⟩ := digVal?_eq_some hc
        obtain ⟨hmap, hlt⟩ := digitsOfChars_eq_some hcs
        cases h
        constructor
        · simp [hcd, hmap]
        · intro x hx
          rcases List.mem_cons.mp hx with rfl | hx
          · exact hd
          · exact hlt x hx

/-- The executable digit value agrees with `Nat.ofDigits 10`. -/
theorem valOfDigitsRev_eq_ofDigits : ∀ ds : List Nat,
    valOfDigitsRev ds = Nat.ofDigits 10 ds
  | [] => rfl
  | d :: ds => by
    rw [valOfDigitsRev, Nat.ofDigits_cons, valOfDigitsRev_eq_ofDigits ds]

/-- Unfolding lemma for `parseChars` on a nonempty list. -/
theorem parseChars_cons (c : Char) (cs : List Char) :
    parseChars (c :: cs) =
      if c = '0' ∧ cs ≠ [] then none
      else
        match digitsOfChars (c :: cs) with
        | none => none
        | some ds => some (valOfDigitsRev ds.reverse) := rfl

/-- Unfolding of `serializeId` away from zero. -/
theorem serializeId_eq {n : Nat} (h : n ≠ 0) :
    serializeId n = ⟨(Nat.digits 10 n).reverse.map digChar⟩ := by
  unfold serializeId
  rw [if_neg h, digitsRev_eq_digits n n le_rfl]

/-- A nonzero digit maps to a character other than the zero digit. -/
theorem digChar_ne_zero {d : Nat} (h1 : d ≠ 0) (h2 : d < 10) : digChar d ≠ '0' := by
  have hall : ∀ x < 10, x ≠ 0 → digChar x ≠ '0' := by decide
  exact hall d h2 h1

/-- Round-trip at the character-list level: parsing the serialization of a
nonzero identifier recovers it. -/
theorem parseChars_digits {n : Nat} (h : n ≠ 0) :
    parseChars ((Nat.digits 10 n).reverse.map digChar) = some n := by
  have hL : Nat.digits 10 n ≠ [] := Nat.digits_ne_nil_iff_ne_zero.mpr h
  have hrev : (Nat.digits 10 n).reverse ≠ [] := by simp [hL]
  have hlt : ∀ d ∈ (Nat.digits 10 n).reverse, d < 10 := by
    intro d hd
    exact Nat.digits_lt_base (by norm_num) (List.mem_reverse.mp hd)
  obtain ⟨c, cs, hcc⟩ := List.exists_cons_of_ne_nil
    (show (Nat.digits 10 n).reverse.map digChar ≠ [] by simp [hL])
  have hparse : digitsOfChars (c :: cs) = some (Nat.digits 10 n).reverse := by
    rw [← hcc]; exact digitsOfChars_map_digChar _ hlt
  have hc0 : c ≠ '0' := by
    have hhead : ((Nat.digits 10 n).reverse.map digChar).head (by simp [hL]) = c := by
      simp [hcc]
    rw [List.head_map] at hhead
    rw [List.head_reverse] at hhead
    rw [← hhead]
    exact digChar_ne_zero (Nat.getLast_digit_ne_zero 10 h)
      (Nat.digits_lt_base (by norm_num) (List.getLast_mem hL))
  rw [hcc, parseChars_cons, if_neg (by simp [hc0]), hparse]
  simp [valOfDigitsRev_eq_ofDigits, Nat.ofDigits_digits]

/-- Canonicity at the character-list level: any successful parse is the
serialization of its value. -/
theorem parseChars_eq_some : ∀ {cs : List Char} {n : Nat},
    parseChars cs = some n → String.mk cs = serializeId n
  | [], n, h => by exact absurd h (by simp [parseChars])
  | c :: cs, n, h => by
    rw [parseChars_cons] at h
    by_cases hc : c = '0' ∧ cs ≠ []
    · rw [if_pos hc] at h; exact absurd h (by simp)
    · rw [if_neg hc] at h
      cases heq : digitsOfChars (c :: cs) with
      | none => rw [heq] at h; exact absurd h (by simp)
      | some ds =>
        rw [heq] at h
        obtain ⟨hmap, hlt⟩ := digitsOfChars_eq_some heq
        have hn : n = valOfDigitsRev ds.reverse := by
          cases h; rfl
        cases ds with
        | nil => exact absurd hmap (by simp)
        | cons d ds1 =>
          have hcd : c = digChar d := by
            have := congrArg (fun l => l.head?) hmap
            simpa using this
          have hcs1 : cs = ds1.map digChar := by
            have := congrArg (fun l => l.tail) hmap
            simpa using this
          by_cases hd0 : d = 0
          · subst hd0
            have hcz : c = '0' := by rw [hcd]; rfl
            have hcs_nil : cs = [] := by
              by_contra hne
              exact hc ⟨hcz, hne⟩
            have hds1 : ds1 = [] := by
              rw [hcs_nil] at hcs1
              exact (List.map_eq_nil_iff.mp hcs1.symm)
            subst hds1; subst hcs_nil
            have : n = 0 := by rw [hn]; rfl
            subst this
            rw [hcz]; rfl
          · have hrevne : (d :: ds1).reverse ≠ [] := by simp
            have hdig : Nat.digits 10 n = (d :: ds1).reverse := by
              rw [hn, valOfDigitsRev_eq_ofDigits]
              exact Nat.digits_ofDigits 10 (by norm_num) _
                (fun l hl => hlt l (List.mem_reverse.mp hl))
                (fun _ => by simpa [List.getLast_reverse] using hd0)
            have hn0 : n ≠ 0 := by
              intro h0
              rw [h0, Nat.digits_zero] at hdig
              exact hrevne hdig.symm
            rw [serializeId_eq hn0, hdig]
            congr 1
            rw [List.reverse_reverse, ← hmap]

/-- Round-trip for the identifier codec. -/
theorem parseId_serializeId (n : Nat) : parseId (serializeId n) = some n := by
  by_cases h : n = 0
  · subst h; rfl
  · rw [serializeId_eq h]
    exact parseChars_digits h

/-- Canonicity for the identifier codec: a successful parse is the
serialization of its value; contrapositively, any string that is not a
serialized identifier parses to `none`. -/
theorem parseId_eq_some {s : String} {n : Nat} (h : parseId s = some n) :
    s = serializeId n := by
  have h2 : String.mk s.data = serializeId n := parseChars_eq_some h
  exact h2

/-- Identifier serialization is injective. -/
theorem serializeId_inj {a b : Nat} (h : serializeId a = serializeId b) : a = b := by
  have ha := parseId_serializeId a
  rw [h, parseId_serializeId b] at ha
  injection ha with ha
  exact ha.symm

/-! ### Handler computation lemmas -/

/-- The store state after a successful coffee create. -/
theorem drink_coffee_store (c : Coffee) (s : Store) :
    (drink_coffee (.ok c) s).2.1 =
      { s with coffeeDefined := true,
               coffees := s.coffees ++ [(s.nextCoffeeId, c)],
               nextCoffeeId := s.nextCoffeeId + 1 } := rfl

/-- Updating at an identifier absent from a record list leaves every entry
unchanged. -/
theorem map_update_fresh (r2 : Coffee) (nid : Nat) :
    ∀ old : List (Nat × Coffee), (∀ e ∈ old, e.1 ≠ nid) →
      old.map (fun e => if e.1 == nid then (nid, r2) else e) = old
  | [], _ => rfl
  | e :: old, h => by
    rw [List.map_cons, if_neg (by simp [h e (List.mem_cons_self ..)]),
      map_update_fresh r2 nid old (fun x hx => h x (List.mem_cons_of_mem _ hx))]

/-- Filtering out an identifier absent from a record list keeps every entry. -/
theorem filter_fresh (nid : Nat) (old : List (Nat × Coffee))
    (h : ∀ e ∈ old, e.1 ≠ nid) :
    old.filter (fun e => !(e.1 == nid)) = old := by
  rw [List.filter_eq_self.mpr]
  intro e he
  simp [h e he]

/-- A well-formed store never holds the next identifier. -/
theorem wf_fresh {s : Store} (hWF : WFStore s) :
    ∀ e ∈ s.coffees, e.1 ≠ s.nextCoffeeId :=
  fun e he => Nat.ne_of_lt (hWF.1 e he)

/-- Updating through the serialized fresh identifier right after a create
replaces exactly the created entry. -/
theorem update_after_create (r1 r2 : Coffee) (s : Store) (hWF : WFStore s) :
    update_coffee (serializeId s.nextCoffeeId) (.ok r2)
        (drink_coffee (.ok r1) s).2.1
      = (.ok (), { s with coffeeDefined := true,
                          coffees := s.coffees ++ [(s.nextCoffeeId, r2)],
                          nextCoffeeId := s.nextCoffeeId + 1 }, 1) := by
  have hfresh := wf_fresh hWF
  simp only [drink_coffee_store, update_coffee, parseId_serializeId]
  unfold updateRefCoffee
  rw [if_pos (by simp)]
  simp only [List.map_append, map_update_fresh r2 s.nextCoffeeId s.coffees hfresh,
    List.map_cons, List.map_nil, beq_self_eq_true, if_pos]

/-- Deleting through the serialized fresh identifier right after a create
removes exactly the created entry. -/
theorem delete_after_create (r1 : Coffee) (s : Store) (hWF : WFStore s) :
    delete_coffee (serializeId s.nextCoffeeId) (drink_coffee (.ok r1) s).2.1
      = (.ok (), { s with coffeeDefined := true,
                          coffees := s.coffees,
                          nextCoffeeId := s.nextCoffeeId + 1 }, 1) := by
  have hfresh := wf_fresh hWF
  simp only [drink_coffee_store, delete_coffee, parseId_serializeId]
  unfold deleteRefCoffee
  rw [if_pos (by simp)]
  simp only [List.filter_append, filter_fresh s.nextCoffeeId s.coffees hfresh]
  simp

/-- The list handlers return the store unchanged and open no transaction. -/
theorem list_coffees_state (s : Store) : (list_coffees s).2 = (s, 0) := by
  by_cases h : s.coffeeDefined = true
  · simp [list_coffees, scanCoffee, h]
  · simp [list_coffees, scanCoffee, h]

/-- The beer list handler returns the store unchanged and opens no
transaction. -/
theorem list_beers_state (s : Store) : (list_beers s).2 = (s, 0) := by
  by_cases h : s.beerDefined = true
  · simp [list_beers, scanBeer, h]
  · simp [list_beers, scanBeer, h]

/-- Coffee update preserves the defined-schema flags. -/
theorem update_coffee_flags (id : String) (body : Except JsonRejection Coffee)
    (s : Store) :
    definedSchemas (update_coffee id body s).2.1 = definedSchemas s := by
  cases body with
  | error rej => rfl
  | ok c =>
    cases hp : parseId id with
    | none => simp [update_coffee, hp]
    | some pid =>
      simp only [update_coffee, hp]
      unfold updateRefCoffee
      by_cases hb : s.coffees.any (fun e => e.1 == pid) = true
      · simp [hb, definedSchemas]
      · simp [hb, definedSchemas]

/-- Coffee delete preserves the defined-schema flags. -/
theorem delete_coffee_flags (id : String) (s : Store) :
    definedSchemas (delete_coffee id s).2.1 = definedSchemas s := by
  cases hp : parseId id with
  | none => simp [delete_coffee, hp]
  | some pid =>
    simp only [delete_coffee, hp]
    unfold deleteRefCoffee
    by_cases hb : s.coffees.any (fun e => e.1 == pid) = true
    · simp [hb, definedSchemas]
    · simp [hb, definedSchemas]

/-- Beer update preserves the defined-schema flags. -/
theorem update_beer_flags (id : String) (body : Except JsonRejection Beer)
    (s : Store) :
    definedSchemas (update_beer id body s).2.1 = definedSchemas s := by
  cases body with
  | error rej => rfl
  | ok b =>
    cases hp : parseId id with
    | none => simp [update_beer, hp]
    | some pid =>
      simp only [update_beer, hp]
      unfold updateRefBeer
      by_cases hb : s.beers.any (fun e => e.1 == pid) = true
      · simp [hb, definedSchemas]
      · simp [hb, definedSchemas]

/-- Beer delete preserves the defined-schema flags. -/
theorem delete_beer_flags (id : String) (s : Store) :
    definedSchemas (delete_beer id s).2.1 = definedSchemas s := by
  cases hp : parseId id with
  | none => simp [delete_beer, hp]
  | some pid =>
    simp only [delete_beer, hp]
    unfold deleteRefBeer
    by_cases hb : s.beers.any (fun e => e.1 == pid) = true
    · simp [hb, definedSchemas]
    · simp [hb, definedSchemas]

/-- No non-create request changes the defined-schema flags. -/
theorem applyNonCreate_flags (r : NonCreateReq) (s : Store) :
    definedSchemas (applyNonCreate r s) = definedSchemas s := by
  cases r with
  | listC => rw [applyNonCreate, (Prod.ext_iff.mp (list_coffees_state s)).1]
  | updateC id body => exact update_coffee_flags id body s
  | deleteC id => exact delete_coffee_flags id s
  | listB => rw [applyNonCreate, (Prod.ext_iff.mp (list_beers_state s)).1]
  | updateB id body => exact update_beer_flags id body s
  | deleteB id => exact delete_beer_flags id s

/-- A whole sequence of non-create requests preserves the defined-schema
flags. -/
theorem foldl_nonCreate_flags :
    ∀ (reqs : List NonCreateReq) (s : Store),
      definedSchemas (reqs.foldl (fun s r => applyNonCreate r s) s)
        = definedSchemas s
  | [], _ => rfl
  | r :: reqs, s => by
    rw [List.foldl_cons, foldl_nonCreate_flags reqs (applyNonCreate r s),
      applyNonCreate_flags r s]

/-- First header value of a freshly prepended pair. -/
theorem getHeader_cons_self (k v : String) (t : Headers) :
    getHeader ((k, v) :: t) k = some v := by
  rw [getHeader, List.find?_cons_of_pos]
  · rfl
  · exact beq_self_eq_true k

/-! ### Claims -/

/-- C1, counterexample to the claim as stated: the malformed identifier
string "not-an-id" supplied to update or delete is answered with a
StoreFailure-class error (`AppError.structsyError`) whose response status is
500 — not with an InvalidInput error carrying a client-error status, as the
claim requires. -/
theorem c1_malformed_id_cex :
    (update_coffee "not-an-id" (.ok rAcme) emptyStore).1
        = .error (.structsyError "InvalidId") ∧
    (delete_coffee "not-an-id" emptyStore).1
        = .error (.structsyError "InvalidId") ∧
    (AppError.structsyError "InvalidId").into_response.status = 500 :=
  ⟨rfl, rfl, rfl⟩

/-- C1 (amended): every malformed identifier string supplied as the path
parameter of update or delete fails with a StoreFailure-class error — the
`Ref` parse failure is a `StructsyError` mapped by `From` into
`AppError::StructsyError`, status 500 — not with InvalidInput; the store is
unchanged, no transaction is opened, and a total error value is returned
(no crash). -/
theorem c1_malformed_id_store_failure (id : String) (r : Coffee) (s : Store)
    (h : parseId id = none) :
    update_coffee id (.ok r) s = (.error (.structsyError "InvalidId"), s, 0) ∧
    delete_coffee id s = (.error (.structsyError "InvalidId"), s, 0) ∧
    (AppError.structsyError "InvalidId").into_response.status = 500 := by
  refine ⟨?_, ?_, rfl⟩ <;> simp [update_coffee, delete_coffee, h]

/-- Witness for C1 at the concrete malformed identifier given by the claim,
the empty string. -/
theorem c1_malformed_id_store_failure_witness :
    update_coffee "" (.ok rAcme) emptyStore
      = (.error (.structsyError "InvalidId"), emptyStore, 0) :=
  (c1_malformed_id_store_failure "" rAcme emptyStore rfl).1

/-- C2, counterexample to the claim as stated: for an IOFailure-class error
the status is 500, but the message is not the string quoted by the claim
("something went wrong, try again later") — the source uses a different
fixed string. -/
theorem c2_io_error_message_cex :
    (AppError.ioError "disk full").into_response.status = 500 ∧
    (AppError.ioError "disk full").into_response.message
        ≠ "something went wrong, try again later" :=
  ⟨rfl, by decide⟩

/-- C2 (amended): for every IOFailure-class error the response has status 500
and its message is exactly the fixed generic string of the source,
"something went wrong.  Try agin later!"; the underlying cause is written to
the error log and the response message is independent of the cause, so the
cause never shapes the response body. -/
theorem c2_io_error_generic (msg : String) :
    (AppError.ioError msg).into_response.status = 500 ∧
    (AppError.ioError msg).into_response.message
        = "something went wrong.  Try agin later!" ∧
    (AppError.ioError msg).into_response.logged = "I/O error -> " ++ msg ∧
    ∀ msg2 : String, (AppError.ioError msg).into_response.message
        = (AppError.ioError msg2).into_response.message :=
  ⟨rfl, rfl, rfl, fun _ => rfl⟩

/-- C3, counterexample to the claim as stated: running `create(r)` followed by
`listAll()` in a reachable store that already holds a record equal to `r`
(produced by an earlier identical create) yields two entries whose record
equals `r`, not exactly one. -/
theorem c3_create_list_cex :
    (list_coffees (drink_coffee (.ok rAcme)
        (drink_coffee (.ok rAcme) emptyStore).2.1).2.1).1
      = .ok ⟨[⟨"0", rAcme⟩, ⟨"1", rAcme⟩]⟩ ∧
    ([(⟨"0", rAcme⟩ : CoffeeItem), ⟨"1", rAcme⟩].countP
        (fun it => it.coffee == rAcme)) = 2 :=
  ⟨rfl, rfl⟩

/-- C3 (amended): for every valid record `r` and every well-formed store
holding no record equal to `r` (in particular a fresh store), `create(r)`
followed by `listAll()` yields exactly one entry whose record equals `r`,
and the identifier of the created entry, passed to update or delete,
resolves to that same entry: update replaces precisely it and delete removes
precisely it. -/
theorem c3_create_then_list_unique (r r2 : Coffee) (s : Store)
    (hWF : WFStore s) (hno : ∀ e ∈ s.coffees, e.2 ≠ r) :
    ((list_coffees (drink_coffee (.ok r) s).2.1).1 =
      .ok ⟨(s.coffees ++ [(s.nextCoffeeId, r)]).map
          (fun e => ⟨serializeId e.1, e.2⟩)⟩) ∧
    (((s.coffees ++ [(s.nextCoffeeId, r)]).map
          (fun e => (⟨serializeId e.1, e.2⟩ : CoffeeItem))).countP
          (fun it => it.coffee == r) = 1) ∧
    (update_coffee (serializeId s.nextCoffeeId) (.ok r2)
        (drink_coffee (.ok r) s).2.1 =
      (.ok (), { s with coffeeDefined := true,
                        coffees := s.coffees ++ [(s.nextCoffeeId, r2)],
                        nextCoffeeId := s.nextCoffeeId + 1 }, 1)) ∧
    (delete_coffee (serializeId s.nextCoffeeId)
        (drink_coffee (.ok r) s).2.1 =
      (.ok (), { s with coffeeDefined := true,
                        coffees := s.coffees,
                        nextCoffeeId := s.nextCoffeeId + 1 }, 1)) := by
  refine ⟨?_, ?_, update_after_create r r2 s hWF, delete_after_create r s hWF⟩
  · rw [drink_coffee_store]
    simp [list_coffees, scanCoffee]
  · rw [List.countP_map, List.countP_append]
    have h0 : s.coffees.countP ((fun it : CoffeeItem => it.coffee == r) ∘
        (fun e => ⟨serializeId e.1, e.2⟩)) = 0 :=
      List.countP_eq_zero.mpr (fun e he => by simp [hno e he])
    rw [h0]
    simp

/-- Witness for C3 on the fresh store. -/
theorem c3_create_then_list_unique_witness :
    (list_coffees (drink_coffee (.ok rAcme) emptyStore).2.1).1
      = .ok ⟨[⟨"0", rAcme⟩]⟩ := by
  have h := c3_create_then_list_unique rAcme rBrew emptyStore
    (by decide) (by decide)
  exact h.1

/-- C4, counterexample to the claim as stated: the claim quantifies over
every `r2`, including `r2 = r1`; after the (successful) update with
`r2 = r1`, the previous value `r1` is still returned by listAll. -/
theorem c4_update_cex :
    (update_coffee "0" (.ok rAcme)
        (drink_coffee (.ok rAcme) emptyStore).2.1).1 = .ok () ∧
    (list_coffees (update_coffee "0" (.ok rAcme)
        (drink_coffee (.ok rAcme) emptyStore).2.1).2.1).1
      = .ok ⟨[⟨"0", rAcme⟩]⟩ :=
  ⟨rfl, rfl⟩

/-- C4 (amended): for the identifier issued by `create(r1)` and every record
`r2`, the successful `update(id, r2)` leaves exactly one record stored under
`id`, equal to `r2`; and provided `r1 ≠ r2`, the pre-update entry
`(id, r1)` no longer appears in any subsequent listAll. -/
theorem c4_update_replaces (r1 r2 : Coffee) (s : Store) (hWF : WFStore s) :
    ((update_coffee (serializeId s.nextCoffeeId) (.ok r2)
        (drink_coffee (.ok r1) s).2.1).1 = .ok ()) ∧
    ((update_coffee (serializeId s.nextCoffeeId) (.ok r2)
        (drink_coffee (.ok r1) s).2.1).2.1.coffees.countP
        (fun e => e.1 == s.nextCoffeeId) = 1) ∧
    ((s.nextCoffeeId, r2) ∈ (update_coffee (serializeId s.nextCoffeeId)
        (.ok r2) (drink_coffee (.ok r1) s).2.1).2.1.coffees) ∧
    (r1 ≠ r2 → ∀ items : CoffeeList,
      (list_coffees (update_coffee (serializeId s.nextCoffeeId) (.ok r2)
          (drink_coffee (.ok r1) s).2.1).2.1).1 = .ok items →
      (⟨serializeId s.nextCoffeeId, r1⟩ : CoffeeItem) ∉ items.coffees) := by
  have hstore := update_after_create r1 r2 s hWF
  have hfresh := wf_fresh hWF
  rw [hstore]
  refine ⟨rfl, ?_, by simp, ?_⟩
  · rw [List.countP_append]
    have h0 : s.coffees.countP (fun e => e.1 == s.nextCoffeeId) = 0 :=
      List.countP_eq_zero.mpr (fun e he => by simp [hfresh e he])
    rw [h0]
    simp
  · intro hne items hitems
    simp only [list_coffees, scanCoffee, if_pos] at hitems
    injection hitems with hitems
    rw [← hitems]
    intro hmem
    simp only [List.mem_map] at hmem
    obtain ⟨e, he, heq⟩ := hmem
    have hid : serializeId e.1 = serializeId s.nextCoffeeId :=
      congrArg CoffeeItem.id heq
    have hrec : e.2 = r1 := congrArg CoffeeItem.coffee heq
    have he1 : e.1 = s.nextCoffeeId := serializeId_inj hid
    rcases List.mem_append.mp he with hold | hnew
    · exact hfresh e hold he1
    · have : e = (s.nextCoffeeId, r2) := by simpa using hnew
      rw [this] at hrec
      exact hne hrec.symm

/-- Witness for C4 on the fresh store with two distinct records. -/
theorem c4_update_replaces_witness :
    (update_coffee (serializeId 0) (.ok rBrew)
        (drink_coffee (.ok rAcme) emptyStore).2.1).1 = .ok () := by
  have h := c4_update_replaces rAcme rBrew emptyStore (by decide)
  exact h.1

/-- C5: deleting a stored identifier removes that record, and a subsequent
update or a second delete through the same (well-formed, now dangling)
identifier fails with a StoreFailure (status 500), not with InvalidInput. -/
theorem c5_delete_then_dangling (id : Nat) (r r2 : Coffee) (s : Store)
    (hmem : (id, r) ∈ s.coffees) :
    ((delete_coffee (serializeId id) s).1 = .ok ()) ∧
    ((id, r) ∉ (delete_coffee (serializeId id) s).2.1.coffees) ∧
    ((update_coffee (serializeId id) (.ok r2)
        (delete_coffee (serializeId id) s).2.1).1
      = .error (.structsyError "RecordNotFound")) ∧
    ((delete_coffee (serializeId id)
        (delete_coffee (serializeId id) s).2.1).1
      = .error (.structsyError "RecordNotFound")) ∧
    (AppError.structsyError "RecordNotFound").into_response.status = 500 := by
  have hany : s.coffees.any (fun e => e.1 == id) = true := by
    rw [List.any_eq_true]
    exact ⟨(id, r), hmem, by simp⟩
  have hdel : delete_coffee (serializeId id) s
      = (.ok (), { s with coffees := s.coffees.filter (fun e => !(e.1 == id)) }, 1) := by
    simp only [delete_coffee, parseId_serializeId]
    unfold deleteRefCoffee
    rw [if_pos hany]
  have hgone : ∀ e ∈ s.coffees.filter (fun e => !(e.1 == id)), ¬ e.1 = id := by
    intro e he
    have := (List.mem_filter.mp he).2
    simpa using this
  have hany2 : (s.coffees.filter (fun e => !(e.1 == id))).any
      (fun e => e.1 == id) = false := by
    rw [← Bool.not_eq_true, List.any_eq_true]
    rintro ⟨e, he, hbe⟩
    exact hgone e he (by simpa using hbe)
  rw [hdel]
  refine ⟨rfl, ?_, ?_, ?_, rfl⟩
  · intro hmem2
    exact hgone (id, r) hmem2 rfl
  · simp only [update_coffee, parseId_serializeId]
    unfold updateRefCoffee
    rw [if_neg (by simp [hany2])]
  · simp only [delete_coffee, parseId_serializeId]
    unfold deleteRefCoffee
    rw [if_neg (by simp [hany2])]

/-- Witness for C5 on a one-record store. -/
theorem c5_delete_then_dangling_witness :
    (delete_coffee (serializeId 0)
        (⟨true, false, 1, 0, [(0, rAcme)], []⟩ : Store)).1 = .ok () := by
  have h := c5_delete_then_dangling 0 rAcme rBrew
    (⟨true, false, 1, 0, [(0, rAcme)], []⟩ : Store) (by simp)
  exact h.1

/-- C6: a create or update request whose JSON body fails to decode is
answered with the decoder's own client-error status and message (the
InvalidInput branch of the responder), and the store state is unchanged and
no transaction is opened, so a listAll issued after the failed request
returns exactly what one issued before it returns. -/
theorem c6_invalid_body_rejected (rej : JsonRejection) (id : String) (s : Store) :
    drink_coffee (.error rej) s = (.error (.jsonRejection rej), s, 0) ∧
    update_coffee id (.error rej) s = (.error (.jsonRejection rej), s, 0) ∧
    drink_beer (.error rej) s = (.error (.jsonRejection rej), s, 0) ∧
    update_beer id (.error rej) s = (.error (.jsonRejection rej), s, 0) ∧
    (AppError.jsonRejection rej).into_response
      = ⟨rej.status, rej.body_text, "bad user input -> " ++ rej.body_text⟩ ∧
    list_coffees (drink_coffee (.error rej) s).2.1 = list_coffees s ∧
    list_beers (update_beer id (.error rej) s).2.1 = list_beers s :=
  ⟨rfl, rfl, rfl, rfl, rfl, rfl, rfl⟩

/-- C7: every response produced through the middleware chain of
`create_router` carries the x-request-id header; when the inbound request
supplied the header its value is echoed, otherwise the freshly generated
identifier is used.  The hypothesis records that the routed handlers of this
service never set that header on their own responses. -/
theorem c7_request_id_propagated (fresh : String) (handler : Headers → Headers)
    (req : Headers)
    (hh : ∀ q : Headers, getHeader (handler q) xRequestId = none) :
    getHeader (create_router_middleware fresh handler req) xRequestId
      = some ((getHeader req xRequestId).getD fresh) := by
  unfold create_router_middleware
  cases hreq : getHeader req xRequestId with
  | some v =>
    simp only [set_request_id, hreq]
    simp only [propagate_request_id, hh, hreq]
    simp [getHeader_cons_self]
  | none =>
    simp only [set_request_id, hreq]
    simp only [propagate_request_id, hh, getHeader_cons_self]
    simp [getHeader_cons_self]

/-- Witness for C7: an inbound request carrying the header sees the same
value echoed on the response. -/
theorem c7_request_id_propagated_witness :
    getHeader (create_router_middleware "generated-uuid" (fun _ => [])
        [("x-request-id", "abc")]) xRequestId = some "abc" := by
  have h := c7_request_id_propagated "generated-uuid" (fun _ => [])
    [("x-request-id", "abc")] (fun _ => rfl)
  exact h

/-- C8: identifier round-trip — parsing the canonical serialization of any
identifier yields the identifier back — and parsing succeeds only on
canonical serializations, so a string that is not a valid serialized
identifier fails with a decoding error (`none`) rather than crashing. -/
theorem c8_identifier_roundtrip :
    (∀ n : Nat, parseId (serializeId n) = some n) ∧
    (∀ (str : String) (n : Nat), parseId str = some n → str = serializeId n) :=
  ⟨parseId_serializeId, fun _ _ h => parseId_eq_some h⟩

/-- Witness for C8 at concrete identifiers. -/
theorem c8_identifier_roundtrip_witness :
    parseId (serializeId 42) = some 42 ∧ "7" = serializeId 7 :=
  ⟨c8_identifier_roundtrip.1 42, c8_identifier_roundtrip.2 "7" 7 (by decide)⟩

/-- C9: only the create handlers register their kind's schema; list, update
and delete never call define, so every non-create request — and every
sequence of them — leaves the defined-schema flags unchanged, and on a fresh
store where no create has run they operate against an undefined schema (the
coffee scan then fails with the store's TypeNotDefined error). -/
theorem c9_only_create_defines :
    (∀ (r : NonCreateReq) (s : Store),
        definedSchemas (applyNonCreate r s) = definedSchemas s) ∧
    (∀ reqs : List NonCreateReq,
        definedSchemas (reqs.foldl (fun s r => applyNonCreate r s) emptyStore)
          = (false, false)) ∧
    (∀ (c : Coffee) (s : Store),
        ((drink_coffee (.ok c) s).2.1).coffeeDefined = true) ∧
    (∀ (b : Beer) (s : Store),
        ((drink_beer (.ok b) s).2.1).beerDefined = true) ∧
    (list_coffees emptyStore).1 = .error (.structsyError "TypeNotDefined") :=
  ⟨applyNonCreate_flags,
   fun reqs => foldl_nonCreate_flags reqs emptyStore,
   fun _ _ => rfl,
   fun _ _ => rfl,
   rfl⟩

/-- C10: the list handlers are read-only — they open no transaction and
return the store state unchanged (hence the persisted records of every
resource kind are identical before and after the request), whether the scan
succeeds or fails. -/
theorem c10_list_readonly (s : Store) :
    (list_coffees s).2 = (s, 0) ∧ (list_beers s).2 = (s, 0) :=
  ⟨list_coffees_state s, list_beers_state s⟩

end Vending
